import Mathlib

/-!
Shallow embedding of the vim modal-editing core (`src/crates/vim/src/vim.rs`).

The `Vim` controller state, its operator stack and the operations
`switch_mode`, `push_operator`, `push_number`, `pop_operator`,
`pop_number_operator`, `clear_operator`, `active_operator`,
`active_editor_input_ignored`, `set_enabled`, `sync_vim_settings`,
`unhook_vim_settings`, the keystroke observer and the editor `Cancel`
action handler are translated from the Rust source.  Mutation of `self`
and of the app context `cx` is made explicit: each operation takes and
returns the controller value (`Vim`) and the observable app state
(`World`, holding the command-palette filter and the optionally bound
editor surface).

The `state` module (`Mode`, `Operator`, `VimState` and its derived
accessors) and the editor crate's selection primitives are not part of
the given sources; those definitions are modelled from the spec and say
so in their doc comments.  Counts are modelled as unbounded naturals,
matching the spec's `Number(count: unsigned integer)`.
-/

namespace VimCore

/-- Modelled from the spec: the `Mode` tagged variant from the missing
`state` module — `Normal`, `Insert`, `Visual{line: bool}`. -/
inductive Mode where
  | normal
  | insert
  | visual (line : Bool)
deriving DecidableEq

/-- Modelled from the spec: the `Operator` tagged variant from the missing
`state` module — `Number(count)`, `FindForward{before}`,
`FindBackward{after}`, `Replace`, plus the domain operators
(delete/change/yank) the spec mentions but does not detail. -/
inductive Operator where
  | number (count : Nat)
  | findForward (before : Bool)
  | findBackward (after : Bool)
  | replace
  | delete
  | change
  | yank
deriving DecidableEq

/-- Modelled from the spec: `VimState` (the spec's ModeState) from the
missing `state` module: current mode plus the pending operator stack.
The list mirrors the Rust `Vec`: index 0 is the bottom, the last element
is the top (most recently pushed, the "active" operator). -/
structure VimState where
  mode : Mode := .normal
  operator_stack : List Operator := []
deriving DecidableEq

/-- Cursor shapes of the external surface (`language::CursorShape`). -/
inductive CursorShape where
  | bar
  | block
  | underscore
  | hollow
deriving DecidableEq

/-- Modelled from the spec: the cursor shape derived from the current
Mode (`state.cursor_shape()`, missing `state` module): insert shows the
default bar, modal-controlled modes show a block. -/
def VimState.cursor_shape (s : VimState) : CursorShape :=
  match s.mode with
  | .insert => .bar
  | _ => .block

/-- Modelled from the spec: whether cursor motions clip at line end
(`state.clip_at_line_end()`, missing `state` module), derived from Mode. -/
def VimState.clip_at_line_end (s : VimState) : Bool :=
  match s.mode with
  | .normal => true
  | _ => false

/-- Modelled from the spec: raw keyboard input is suppressed whenever the
mode is fully modal-controlled, i.e. not Insert
(`state.vim_controlled()`, missing `state` module). -/
def VimState.vim_controlled (s : VimState) : Bool :=
  match s.mode with
  | .insert => false
  | _ => true

/-- Modelled from the spec: whether the mode requires empty (collapsed)
selections (`state.empty_selections_only()`, missing `state` module):
Visual keeps non-empty selections, every other mode collapses them. -/
def VimState.empty_selections_only (s : VimState) : Bool :=
  match s.mode with
  | .visual _ => false
  | _ => true

/-- Modelled from the spec: the named keymap context layer derived from
Mode/OperatorStack (`state.keymap_context_layer()`, missing `state`
module); modelled as the pair of facts it is derived from. -/
structure KeymapLayer where
  mode : Mode
  pending : Option Operator
deriving DecidableEq

/-- Modelled from the spec: derivation of the context layer from the
state (`state.keymap_context_layer()`, missing `state` module). -/
def VimState.keymap_context_layer (s : VimState) : KeymapLayer :=
  { mode := s.mode, pending := s.operator_stack.getLast? }

/-- The external surface's editing-mode category (`editor::EditorMode`). -/
inductive EditorMode where
  | full
  | singleLine
  | autoHeight
deriving DecidableEq

/-- Modelled from the spec: one selection of the bound surface, with a
head, the other (non-head) endpoint, and a movement goal carried through
adjustments (editor crate, not in the given sources). -/
structure Selection where
  head : Nat
  tail : Nat
  goal : Nat
deriving DecidableEq

/-- Modelled from the spec: `Selection::collapse_to(point, goal)` of the
editor crate — the selection collapses to the given position. -/
def Selection.collapse_to (s : Selection) (point : Nat) (goal : Nat) : Selection :=
  { s with head := point, tail := point, goal := goal }

/-- Modelled from the spec: `Selection::set_head(point, goal)` of the
editor crate, per the spec's words: the non-head endpoint is extended to
the given (clamped) head. -/
def Selection.set_head (s : Selection) (point : Nat) (goal : Nat) : Selection :=
  { s with tail := point, goal := goal }

/-- The bound text-editing surface: the fields of the editor the vim core
reads (`mode()`) and writes (cursor shape, clip flag, input-enabled flag,
`selections.line_mode`, keymap context layer, the selections). -/
structure Editor where
  mode : EditorMode
  cursor_shape : CursorShape
  clip_at_line_ends : Bool
  input_enabled : Bool
  line_mode : Bool
  context_layer : Option KeymapLayer
  selections : List Selection
deriving DecidableEq

/-- Embeds `collections::CommandPaletteFilter`: the global set of filtered
namespaces, as a duplicate-free list. -/
structure CommandPaletteFilter where
  filtered_namespaces : List String
deriving DecidableEq

/-- Set-insert on the filtered-namespaces list (`HashSet::insert`). -/
def setInsert (l : List String) (x : String) : List String :=
  if x ∈ l then l else x :: l

/-- Set-remove on the filtered-namespaces list (`HashSet::remove`). -/
def setRemove (l : List String) (x : String) : List String :=
  l.filter (fun y => y ≠ x)

/-- The observable app state threaded through every operation in place of
the Rust `cx`: the global command-palette filter and the bound surface.
`editor = none` models an unbound or dropped surface (the weak handle in
`Vim.active_editor` failing to upgrade). -/
structure World where
  filter : CommandPaletteFilter
  editor : Option Editor
deriving DecidableEq

/-- Embeds `Vim::update_active_editor`: apply an update to the bound surface when
it is present, otherwise do nothing. -/
def update_active_editor (w : World) (f : Editor → Editor) : World :=
  { w with editor := w.editor.map f }

/-- The `Vim` controller (`struct Vim`): the enabled flag and the mode
state.  The weak editor handle and subscription live in `World.editor`. -/
structure Vim where
  enabled : Bool := false
  state : VimState := {}
deriving DecidableEq

/-- Embeds `Vim::active_operator`: read-only peek at the top of the stack. -/
def Vim.active_operator (v : Vim) : Option Operator :=
  v.state.operator_stack.getLast?

/-- Embeds `Vim::unhook_vim_settings`: reset the surface to its non-modal
defaults. -/
def unhook_vim_settings (editor : Editor) : Editor :=
  { editor with
    cursor_shape := .bar
    clip_at_line_ends := false
    input_enabled := true
    line_mode := false
    context_layer := none }

/-- Embeds `Vim::sync_vim_settings`: reconcile the command-palette filter and,
when a surface is bound, its settings.  Enabled and a full-mode surface
get the state-derived settings; otherwise the surface is unhooked. -/
def Vim.sync_vim_settings (v : Vim) (w : World) : World :=
  let state := v.state
  let cursor_shape := state.cursor_shape
  let w :=
    { w with
      filter :=
        if v.enabled then
          { filtered_namespaces := setRemove w.filter.filtered_namespaces "vim" }
        else
          { filtered_namespaces := setInsert w.filter.filtered_namespaces "vim" } }
  update_active_editor w fun editor =>
    if v.enabled = true ∧ editor.mode = EditorMode.full then
      { editor with
        cursor_shape := cursor_shape
        clip_at_line_ends := state.clip_at_line_end
        input_enabled := !state.vim_controlled
        line_mode := (match state.mode with | .visual true => true | _ => false)
        context_layer := some state.keymap_context_layer }
    else
      unhook_vim_settings editor

/-- Embeds `Vim::switch_mode(mode, leave_selections)`: set the mode, clear the
operator stack, sync settings, and unless `leave_selections` adjust every
selection of the bound surface.  `clip` embeds the surface's
`map.clip_point(·, Bias::Left)` leftward clamping. -/
def Vim.switch_mode (v : Vim) (mode : Mode) (leave_selections : Bool)
    (clip : Nat → Nat) (w : World) : Vim × World :=
  let v := { v with state := { v.state with mode := mode, operator_stack := [] } }
  let w := v.sync_vim_settings w
  if leave_selections then
    (v, w)
  else
    (v,
      update_active_editor w fun editor =>
        { editor with
          selections :=
            editor.selections.map fun selection =>
              if v.state.empty_selections_only then
                let new_head := clip selection.head
                selection.collapse_to new_head selection.goal
              else
                selection.set_head (clip selection.head) selection.goal })

/-- Embeds `Vim::push_operator`: append to the stack, then sync. -/
def Vim.push_operator (v : Vim) (operator : Operator) (w : World) : Vim × World :=
  let v := { v with state := { v.state with operator_stack := v.state.operator_stack ++ [operator] } }
  (v, v.sync_vim_settings w)

/-- Embeds `Vim::pop_operator`: remove and return the top operator, then sync.
The Rust code panics on an empty stack ("Operator popped when no operator
was on the stack..."); the panic is embedded as `none`. -/
def Vim.pop_operator (v : Vim) (w : World) : Option (Operator × Vim × World) :=
  match v.state.operator_stack.getLast? with
  | none => none
  | some popped_operator =>
      let v := { v with state := { v.state with operator_stack := v.state.operator_stack.dropLast } }
      some (popped_operator, v, v.sync_vim_settings w)

/-- Embeds `Vim::push_number(digit)`: merge into an active `Number` accumulator
or push a fresh one.  (In the `some Number` branch `pop_operator` cannot
return `none`; that arm is dead code kept for totality.) -/
def Vim.push_number (v : Vim) (number : Nat) (w : World) : Vim × World :=
  match v.active_operator with
  | some (.number current_number) =>
      match v.pop_operator w with
      | some (_, v, w) => v.push_operator (.number (current_number * 10 + number)) w
      | none => v.push_operator (.number (current_number * 10 + number)) w
  | _ => v.push_operator (.number number) w

/-- Embeds `Vim::pop_number_operator`: consume an optional leading count,
defaulting to 1.  (As in `push_number`, the `none` arm is dead code.) -/
def Vim.pop_number_operator (v : Vim) (w : World) : Nat × Vim × World :=
  match v.active_operator with
  | some (.number number) =>
      match v.pop_operator w with
      | some (_, v, w) => (number, v, w)
      | none => (number, v, w)
  | _ => (1, v, w)

/-- Embeds `Vim::clear_operator`: empty the stack, then sync. -/
def Vim.clear_operator (v : Vim) (w : World) : Vim × World :=
  let v := { v with state := { v.state with operator_stack := [] } }
  (v, v.sync_vim_settings w)

/-- The external calls `active_editor_input_ignored` can make; recording
them keeps the branches that leave the vim core observable without
embedding the motion/replace logic (missing modules). -/
inductive InputEffect where
  | noEffect
  | motionFindForward (before : Bool) (text : String)
  | motionFindBackward (after : Bool) (text : String)
  | normalReplace (text : String)
  | visualReplace (text : String) (line : Bool)
deriving DecidableEq

/-- Embeds `Vim::active_editor_input_ignored(text)`: dispatch intercepted raw
text on the active operator.  The find/replace arms hand off to external
modules, recorded as an `InputEffect`; the defensive `Replace` fallback
clears the operator. -/
def Vim.active_editor_input_ignored (text : String) (v : Vim) (w : World) :
    InputEffect × Vim × World :=
  if text = "" then
    (.noEffect, v, w)
  else
    match v.active_operator with
    | some (.findForward before) => (.motionFindForward before text, v, w)
    | some (.findBackward after) => (.motionFindBackward after text, v, w)
    | some .replace =>
        match v.state.mode with
        | .normal => (.normalReplace text, v, w)
        | .visual line => (.visualReplace text line, v, w)
        | _ =>
            let (v, w) := v.clear_operator w
            (.noEffect, v, w)
    | _ => (.noEffect, v, w)

/-- Embeds `Vim::set_enabled(enabled)`: on a genuine transition, reset the state
to default, switch to Normal when enabling, and sync. -/
def Vim.set_enabled (v : Vim) (enabled : Bool) (clip : Nat → Nat) (w : World) :
    Vim × World :=
  if v.enabled ≠ enabled then
    let v : Vim := { enabled := enabled, state := {} }
    let (v, w) := if enabled then v.switch_mode .normal false clip w else (v, w)
    (v, v.sync_vim_settings w)
  else
    (v, w)

/-- The keystroke observer closure registered by `observe_keystrokes`:
given the dispatch outcome (`none` = unhandled, `some (ns, name)` =
handled by that namespaced action), react and return the
continue-dispatch flag. -/
def observe_keystrokes (handled_by : Option (String × String)) (v : Vim) (w : World) :
    Bool × Vim × World :=
  match handled_by with
  | some (ns, name) =>
      if ns = "vim" ∨ (ns = "editor" ∧ name = "Cancel") then
        (true, v, w)
      else
        observeFallthrough v w
  | none => observeFallthrough v w
where
  /-- The operator inspection shared by the unhandled and
  handled-elsewhere paths of the observer. -/
  observeFallthrough (v : Vim) (w : World) : Bool × Vim × World :=
    match v.active_operator with
    | some (.findForward _) | some (.findBackward _) | some .replace => (true, v, w)
    | some _ =>
        let (v, w) := v.clear_operator w
        (true, v, w)
    | none => (true, v, w)

/-- The editor `Cancel` action handler from `init`: switch to Normal when
not in Normal mode or an operator is active, otherwise propagate the
action onward (the returned flag). -/
def cancel_handler (v : Vim) (clip : Nat → Nat) (w : World) : Bool × Vim × World :=
  if v.state.mode ≠ Mode.normal ∨ (v.active_operator).isSome then
    let (v, w) := v.switch_mode .normal false clip w
    (false, v, w)
  else
    (true, v, w)

/-- A sequence of `push_number` calls with no intervening operator push. -/
def push_numbers (v : Vim) (digits : List Nat) (w : World) : Vim × World :=
  digits.foldl (fun p d => p.1.push_number d p.2) (v, w)

/-- The base-10 value of a digit sequence: `((d1*10+d2)*10+...)+dn`. -/
def digitsValue (digits : List Nat) : Nat :=
  digits.foldl (fun a d => a * 10 + d) 0

end VimCore

namespace VimCore

/-! ## Helper lemmas -/

/-- A default controller: disabled, Normal mode, empty stack. -/
def v0 : Vim := {}

/-- A minimal app state: empty filter, no bound surface. -/
def w0 : World := { filter := { filtered_namespaces := [] }, editor := none }

lemma push_number_state_fresh (v : Vim) (w : World) (d : Nat)
    (h : ∀ n, v.active_operator ≠ some (Operator.number n)) :
    ((v.push_number d w).1).state.mode = v.state.mode ∧
    ((v.push_number d w).1).state.operator_stack
      = v.state.operator_stack ++ [Operator.number d] := by
  rcases hop : v.active_operator with _ | op
  · simp [Vim.push_number, hop, Vim.push_operator]
  · cases op
    case number n => exact absurd hop (h n)
    all_goals simp [Vim.push_number, hop, Vim.push_operator]

lemma push_number_state_number (v : Vim) (w : World) (d : Nat) (s : List Operator) (m : Nat)
    (h : v.state.operator_stack = s ++ [Operator.number m]) :
    ((v.push_number d w).1).state.mode = v.state.mode ∧
    ((v.push_number d w).1).state.operator_stack
      = s ++ [Operator.number (m * 10 + d)] := by
  have hop : v.active_operator = some (Operator.number m) := by
    simp [Vim.active_operator, h, List.getLast?_concat]
  simp [Vim.push_number, hop, Vim.pop_operator, Vim.active_operator, h,
    List.getLast?_concat, List.dropLast_concat, Vim.push_operator]

lemma push_numbers_cons (v : Vim) (w : World) (d : Nat) (ds : List Nat) :
    push_numbers v (d :: ds) w
      = push_numbers (v.push_number d w).1 ds (v.push_number d w).2 := rfl

lemma push_numbers_accumulate (ds : List Nat) :
    ∀ (v : Vim) (w : World) (s : List Operator) (m : Nat),
      v.state.operator_stack = s ++ [Operator.number m] →
      ((push_numbers v ds w).1).state.mode = v.state.mode ∧
      ((push_numbers v ds w).1).state.operator_stack
        = s ++ [Operator.number (ds.foldl (fun a d => a * 10 + d) m)] := by
  induction ds with
  | nil =>
      intro v w s m h
      simpa [push_numbers] using h
  | cons d ds ih =>
      intro v w s m h
      have h1 := push_number_state_number v w d s m h
      rw [push_numbers_cons]
      have h2 := ih (v.push_number d w).1 (v.push_number d w).2 s (m * 10 + d) h1.2
      exact ⟨h2.1.trans h1.1, by simpa using h2.2⟩

lemma pop_number_operator_concat (v : Vim) (w : World) (s : List Operator) (m : Nat)
    (h : v.state.operator_stack = s ++ [Operator.number m]) :
    (v.pop_number_operator w).1 = m ∧
    ((v.pop_number_operator w).2.1).state.operator_stack = s ∧
    ((v.pop_number_operator w).2.1).state.mode = v.state.mode := by
  have hop : v.active_operator = some (Operator.number m) := by
    simp [Vim.active_operator, h, List.getLast?_concat]
  simp [Vim.pop_number_operator, hop, Vim.pop_operator, Vim.active_operator, h,
    List.getLast?_concat, List.dropLast_concat]

/-! ## Claims -/

/-- C1: starting from any stack whose top is not a `Number`, a sequence of
`push_number(d1), ..., push_number(dn)` with no intervening operator push
accumulates into a single `Number` operator holding the base-10 value
`((d1*10+d2)*10+...)+dn` pushed on top of the original stack, and a
subsequent `pop_number_operator()` returns that value and restores the
stack to its state before the first push. -/
theorem push_number_sequence_accumulates (v : Vim) (w : World) (ds : List Nat)
    (hne : ds ≠ []) (h : ∀ n, v.active_operator ≠ some (Operator.number n)) :
    (((push_numbers v ds w).1).pop_number_operator (push_numbers v ds w).2).1
        = digitsValue ds ∧
    ((((push_numbers v ds w).1).pop_number_operator
        (push_numbers v ds w).2).2.1).state.operator_stack
        = v.state.operator_stack ∧
    ((push_numbers v ds w).1).state.operator_stack
        = v.state.operator_stack ++ [Operator.number (digitsValue ds)] := by
  rcases ds with _ | ⟨d, rest⟩
  · exact absurd rfl hne
  · have h1 := push_number_state_fresh v w d h
    have h2 := push_numbers_accumulate rest (v.push_number d w).1 (v.push_number d w).2
      v.state.operator_stack d h1.2
    have hval : digitsValue (d :: rest) = rest.foldl (fun a d => a * 10 + d) d := by
      simp [digitsValue]
    rw [push_numbers_cons]
    have h3 := pop_number_operator_concat _
      (push_numbers (v.push_number d w).1 rest (v.push_number d w).2).2 _ _ h2.2
    exact ⟨h3.1.trans hval.symm, h3.2.1, by rw [h2.2, hval]⟩

/-- Witness for C1 at digits 1, 2, 3 on the default state. -/
theorem push_number_sequence_accumulates_witness :
    (((push_numbers v0 [1, 2, 3] w0).1).pop_number_operator
        (push_numbers v0 [1, 2, 3] w0).2).1 = 123 := by
  have h := push_number_sequence_accumulates v0 w0 [1, 2, 3]
    (by decide) (fun n hn => by rw [show v0.active_operator = none from rfl] at hn; simp at hn)
  have hv : digitsValue [1, 2, 3] = 123 := by decide
  rw [h.1, hv]

/-- C2: `pop_operator()` on an empty stack hits the fatal
programming-error path (embedded as `none`, the Rust `expect` panic) and
never silently continues; on a non-empty stack it removes and returns the
top (most recently pushed) operator. -/
theorem pop_operator_spec (v : Vim) (w : World) :
    (v.state.operator_stack = [] → v.pop_operator w = none) ∧
    (∀ s op, v.state.operator_stack = s ++ [op] →
      ∃ v1 w1, v.pop_operator w = some (op, v1, w1) ∧
        v1.state.operator_stack = s ∧ v1.state.mode = v.state.mode) := by
  constructor
  · intro h
    simp [Vim.pop_operator, h]
  · intro s op h
    have hg : v.state.operator_stack.getLast? = some op := by
      simp [h, List.getLast?_concat]
    simp only [Vim.pop_operator, hg]
    exact ⟨_, _, rfl, by simp [h, List.dropLast_concat], rfl⟩

/-- Witness for C2: on a stack holding just `Replace`, popping returns it
and empties the stack; on the default empty stack, popping is the fatal
path. -/
theorem pop_operator_spec_witness :
    (v0.pop_operator w0 = none) ∧
    ∃ v1 w1,
      (Vim.mk false { mode := .normal, operator_stack := [Operator.replace] }).pop_operator w0
        = some (Operator.replace, v1, w1) ∧
      v1.state.operator_stack = [] ∧ v1.state.mode = Mode.normal := by
  constructor
  · exact (pop_operator_spec v0 w0).1 rfl
  · exact (pop_operator_spec
      (Vim.mk false { mode := .normal, operator_stack := [Operator.replace] }) w0).2
      [] Operator.replace rfl

/-- C7: `pop_number_operator()` on an empty stack, or when the top
operator is not a `Number`, returns 1 and mutates nothing; when the top
operator is `Number(n)` it pops it and returns `n`. -/
theorem pop_number_operator_spec (v : Vim) (w : World) :
    ((∀ n, v.active_operator ≠ some (Operator.number n)) →
      v.pop_number_operator w = (1, v, w)) ∧
    (∀ n, v.active_operator = some (Operator.number n) →
      (v.pop_number_operator w).1 = n ∧
      ((v.pop_number_operator w).2.1).state.operator_stack
        = v.state.operator_stack.dropLast ∧
      ((v.pop_number_operator w).2.1).state.mode = v.state.mode) := by
  constructor
  · intro h
    rcases hop : v.active_operator with _ | op
    · simp [Vim.pop_number_operator, hop]
    · cases op
      case number n => exact absurd hop (h n)
      all_goals simp [Vim.pop_number_operator, hop]
  · intro n hop
    have hg : v.state.operator_stack.getLast? = some (Operator.number n) := hop
    simp [Vim.pop_number_operator, hop, Vim.pop_operator, hg]

/-- Witness for C7: returns 1 untouched on the default empty stack, and
returns 5 popping a `Number 5` top. -/
theorem pop_number_operator_spec_witness :
    v0.pop_number_operator w0 = (1, v0, w0) ∧
    ((Vim.mk false { mode := .normal, operator_stack := [Operator.number 5] }).pop_number_operator
        w0).1 = 5 := by
  constructor
  · exact (pop_number_operator_spec v0 w0).1
      (fun n hn => by rw [show v0.active_operator = none from rfl] at hn; simp at hn)
  · exact ((pop_number_operator_spec
      (Vim.mk false { mode := .normal, operator_stack := [Operator.number 5] }) w0).2 5 rfl).1

end VimCore

namespace VimCore

/-- C5: for every target mode, every `leave_selections` flag, every clip
function and every prior stack contents, after `switch_mode` the operator
stack is empty and the current mode equals the target mode. -/
theorem switch_mode_clears_stack (v : Vim) (mode : Mode) (leave_selections : Bool)
    (clip : Nat → Nat) (w : World) :
    ((v.switch_mode mode leave_selections clip w).1).state.operator_stack = [] ∧
    ((v.switch_mode mode leave_selections clip w).1).state.mode = mode := by
  cases leave_selections <;> simp [Vim.switch_mode]

lemma fallthrough_fst (v : Vim) (w : World) :
    (observe_keystrokes.observeFallthrough v w).1 = true := by
  rcases hop : v.active_operator with _ | op
  · simp [observe_keystrokes.observeFallthrough, hop]
  · cases op <;> simp [observe_keystrokes.observeFallthrough, hop]

lemma fallthrough_none (v : Vim) (w : World) (h : v.active_operator = none) :
    observe_keystrokes.observeFallthrough v w = (true, v, w) := by
  simp [observe_keystrokes.observeFallthrough, h]

lemma fallthrough_findForward (v : Vim) (w : World) (b : Bool)
    (h : v.active_operator = some (Operator.findForward b)) :
    observe_keystrokes.observeFallthrough v w = (true, v, w) := by
  simp [observe_keystrokes.observeFallthrough, h]

lemma fallthrough_findBackward (v : Vim) (w : World) (b : Bool)
    (h : v.active_operator = some (Operator.findBackward b)) :
    observe_keystrokes.observeFallthrough v w = (true, v, w) := by
  simp [observe_keystrokes.observeFallthrough, h]

lemma fallthrough_replace (v : Vim) (w : World)
    (h : v.active_operator = some Operator.replace) :
    observe_keystrokes.observeFallthrough v w = (true, v, w) := by
  simp [observe_keystrokes.observeFallthrough, h]

lemma fallthrough_other (v : Vim) (w : World) (op : Operator)
    (h : v.active_operator = some op)
    (h1 : ∀ b, op ≠ Operator.findForward b)
    (h2 : ∀ b, op ≠ Operator.findBackward b)
    (h3 : op ≠ Operator.replace) :
    observe_keystrokes.observeFallthrough v w
      = (true, (v.clear_operator w).1, (v.clear_operator w).2) := by
  cases op
  case findForward b => exact absurd rfl (h1 b)
  case findBackward b => exact absurd rfl (h2 b)
  case replace => exact absurd rfl h3
  all_goals simp [observe_keystrokes.observeFallthrough, h]

/-- C4: the keystroke observer always returns `true`; when the keystroke
was handled by the vim namespace or the editor `Cancel` action it changes
no state; otherwise an active `FindForward`/`FindBackward`/`Replace`
operator is left untouched, any other active operator is discarded via
`clear_operator`, and with no active operator nothing changes. -/
theorem observe_keystrokes_spec (handled_by : Option (String × String)) (v : Vim) (w : World) :
    (observe_keystrokes handled_by v w).1 = true ∧
    (∀ ns name, handled_by = some (ns, name) →
      (ns = "vim" ∨ (ns = "editor" ∧ name = "Cancel")) →
      observe_keystrokes handled_by v w = (true, v, w)) ∧
    ((handled_by = none ∨ ∃ ns name, handled_by = some (ns, name) ∧
        ¬(ns = "vim" ∨ (ns = "editor" ∧ name = "Cancel"))) →
      (((∃ b, v.active_operator = some (Operator.findForward b)) ∨
        (∃ b, v.active_operator = some (Operator.findBackward b)) ∨
        v.active_operator = some Operator.replace) →
        observe_keystrokes handled_by v w = (true, v, w)) ∧
      (∀ op, v.active_operator = some op →
        (∀ b, op ≠ Operator.findForward b) →
        (∀ b, op ≠ Operator.findBackward b) →
        op ≠ Operator.replace →
        observe_keystrokes handled_by v w
          = (true, (v.clear_operator w).1, (v.clear_operator w).2)) ∧
      (v.active_operator = none →
        observe_keystrokes handled_by v w = (true, v, w))) := by
  refine ⟨?_, ?_, ?_⟩
  · rcases handled_by with _ | ⟨ns, name⟩
    · exact fallthrough_fst v w
    · by_cases hc : ns = "vim" ∨ (ns = "editor" ∧ name = "Cancel")
      · simp [observe_keystrokes, if_pos hc]
      · rw [show observe_keystrokes (some (ns, name)) v w
            = observe_keystrokes.observeFallthrough v w from by
          simp [observe_keystrokes, if_neg hc]]
        exact fallthrough_fst v w
  · intro ns name heq hc
    subst heq
    simp [observe_keystrokes, if_pos hc]
  · intro hcase
    have hred : observe_keystrokes handled_by v w
        = observe_keystrokes.observeFallthrough v w := by
      rcases hcase with h | ⟨ns, name, heq, hc⟩
      · subst h; rfl
      · subst heq; simp [observe_keystrokes, if_neg hc]
    refine ⟨?_, ?_, ?_⟩
    · intro h
      rw [hred]
      rcases h with ⟨b, hb⟩ | ⟨b, hb⟩ | hb
      · exact fallthrough_findForward v w b hb
      · exact fallthrough_findBackward v w b hb
      · exact fallthrough_replace v w hb
    · intro op hop h1 h2 h3
      rw [hred]
      exact fallthrough_other v w op hop h1 h2 h3
    · intro h
      rw [hred]
      exact fallthrough_none v w h

/-- Witness for C4: a vim-handled keystroke changes nothing, and an
unhandled keystroke with a pending `Number 4` clears the operator stack. -/
theorem observe_keystrokes_spec_witness :
    observe_keystrokes (some ("vim", "w")) v0 w0 = (true, v0, w0) ∧
    observe_keystrokes none
        (Vim.mk false { mode := .normal, operator_stack := [Operator.number 4] }) w0
      = (true,
          ((Vim.mk false { mode := .normal, operator_stack := [Operator.number 4] }).clear_operator
            w0).1,
          ((Vim.mk false { mode := .normal, operator_stack := [Operator.number 4] }).clear_operator
            w0).2) := by
  constructor
  · exact (observe_keystrokes_spec (some ("vim", "w")) v0 w0).2.1 "vim" "w" rfl (Or.inl rfl)
  · exact ((observe_keystrokes_spec none
      (Vim.mk false { mode := .normal, operator_stack := [Operator.number 4] }) w0).2.2
      (Or.inl rfl)).2.1 (Operator.number 4) rfl
      (fun b h => Operator.noConfusion h) (fun b h => Operator.noConfusion h)
      (fun h => Operator.noConfusion h)

/-- C6: `active_editor_input_ignored(text)` is a no-op on empty text; with
an active `Replace` operator in a mode that is neither Normal nor Visual
it clears the operator stack and does nothing else (no error surfaced);
with any active operator other than the find/replace three, or none, the
text is silently dropped with no state change. -/
theorem active_editor_input_ignored_spec (text : String) (v : Vim) (w : World) :
    (text = "" → Vim.active_editor_input_ignored text v w = (.noEffect, v, w)) ∧
    (text ≠ "" → v.active_operator = some Operator.replace →
      (∀ l, v.state.mode ≠ Mode.visual l) → v.state.mode ≠ Mode.normal →
      Vim.active_editor_input_ignored text v w
        = (.noEffect, (v.clear_operator w).1, (v.clear_operator w).2)) ∧
    (text ≠ "" →
      (∀ b, v.active_operator ≠ some (Operator.findForward b)) →
      (∀ b, v.active_operator ≠ some (Operator.findBackward b)) →
      v.active_operator ≠ some Operator.replace →
      Vim.active_editor_input_ignored text v w = (.noEffect, v, w)) := by
  refine ⟨?_, ?_, ?_⟩
  · intro h
    simp [Vim.active_editor_input_ignored, h]
  · intro ht hop hvis hnor
    rcases hm : v.state.mode with _ | _ | l
    · exact absurd hm hnor
    · simp [Vim.active_editor_input_ignored, ht, hop, hm]
    · exact absurd hm (hvis l)
  · intro ht h1 h2 h3
    rcases hop : v.active_operator with _ | op
    · simp [Vim.active_editor_input_ignored, ht, hop]
    · cases op
      case findForward b => exact absurd hop (h1 b)
      case findBackward b => exact absurd hop (h2 b)
      case replace => exact absurd hop h3
      all_goals simp [Vim.active_editor_input_ignored, ht, hop]

/-- Witness for C6: with `Replace` active in Insert mode, the text `"x"`
only clears the operator stack. -/
theorem active_editor_input_ignored_spec_witness :
    Vim.active_editor_input_ignored "x"
        (Vim.mk false { mode := .insert, operator_stack := [Operator.replace] }) w0
      = (.noEffect,
          ((Vim.mk false { mode := .insert, operator_stack := [Operator.replace] }).clear_operator
            w0).1,
          ((Vim.mk false { mode := .insert, operator_stack := [Operator.replace] }).clear_operator
            w0).2) := by
  exact (active_editor_input_ignored_spec "x"
      (Vim.mk false { mode := .insert, operator_stack := [Operator.replace] }) w0).2.1
    (by decide) rfl (fun l h => Mode.noConfusion h) (fun h => Mode.noConfusion h)

/-- C10: the editor `Cancel` handler switches to Normal mode (with
`leave_selections = false`) exactly when the current mode is not Normal or
some operator is active; otherwise it propagates the action onward with no
modal state change. -/
theorem cancel_handler_spec (v : Vim) (clip : Nat → Nat) (w : World) :
    ((v.state.mode ≠ Mode.normal ∨ (v.active_operator).isSome) →
      (cancel_handler v clip w).1 = false ∧
      (cancel_handler v clip w).2 = v.switch_mode .normal false clip w ∧
      ((cancel_handler v clip w).2.1).state.mode = Mode.normal) ∧
    (v.state.mode = Mode.normal → v.active_operator = none →
      cancel_handler v clip w = (true, v, w)) := by
  constructor
  · intro h
    refine ⟨?_, ?_, ?_⟩ <;> simp [cancel_handler, if_pos h, Vim.switch_mode]
  · intro h1 h2
    have h : ¬(v.state.mode ≠ Mode.normal ∨ (v.active_operator).isSome) := by
      simp [h1, h2]
    simp [cancel_handler, if_neg h]

/-- Witness for C10: from Insert mode with an empty stack, `Cancel`
switches back to Normal without propagating; from the default Normal
state it propagates unchanged. -/
theorem cancel_handler_spec_witness :
    (cancel_handler (Vim.mk false { mode := .insert, operator_stack := [] }) id w0).1 = false ∧
    ((cancel_handler (Vim.mk false { mode := .insert, operator_stack := [] }) id
        w0).2.1).state.mode = Mode.normal ∧
    cancel_handler v0 id w0 = (true, v0, w0) := by
  refine ⟨?_, ?_, ?_⟩
  · exact ((cancel_handler_spec (Vim.mk false { mode := .insert, operator_stack := [] }) id
      w0).1 (Or.inl (by decide))).1
  · exact ((cancel_handler_spec (Vim.mk false { mode := .insert, operator_stack := [] }) id
      w0).1 (Or.inl (by decide))).2.2
  · exact (cancel_handler_spec v0 id w0).2 rfl rfl

end VimCore

namespace VimCore

/-- A full-mode surface with one non-collapsed selection, for witnesses. -/
def edFull : Editor :=
  { mode := .full, cursor_shape := .bar, clip_at_line_ends := false,
    input_enabled := true, line_mode := false, context_layer := none,
    selections := [Selection.mk 3 1 0] }

/-- An app state binding `edFull`, for witnesses. -/
def wE : World := { filter := { filtered_namespaces := [] }, editor := some edFull }

lemma setInsert_idem (l : List String) (x : String) :
    setInsert (setInsert l x) x = setInsert l x := by
  by_cases h : x ∈ l <;> simp [setInsert, h]

lemma setRemove_idem (l : List String) (x : String) :
    setRemove (setRemove l x) x = setRemove l x := by
  simp [setRemove, List.filter_filter]

lemma mem_setRemove_self (l : List String) (x : String) : x ∉ setRemove l x := by
  simp [setRemove]

lemma mem_setInsert_self (l : List String) (x : String) : x ∈ setInsert l x := by
  by_cases h : x ∈ l <;> simp [setInsert, h]

lemma sync_editor_eq (v : Vim) (w : World) (e : Editor) (h : w.editor = some e) :
    (v.sync_vim_settings w).editor
      = some (if v.enabled = true ∧ e.mode = EditorMode.full then
          { e with
            cursor_shape := v.state.cursor_shape
            clip_at_line_ends := v.state.clip_at_line_end
            input_enabled := !v.state.vim_controlled
            line_mode := (match v.state.mode with | .visual true => true | _ => false)
            context_layer := some v.state.keymap_context_layer }
        else unhook_vim_settings e) := by
  simp [Vim.sync_vim_settings, update_active_editor, h]

lemma sync_vim_settings_idem (v : Vim) (w : World) :
    v.sync_vim_settings (v.sync_vim_settings w) = v.sync_vim_settings w := by
  rcases w with ⟨⟨l⟩, e⟩
  rcases e with _ | ed
  · cases hv : v.enabled <;>
      simp [Vim.sync_vim_settings, update_active_editor, hv, setInsert_idem, setRemove_idem]
  · cases hv : v.enabled
    · simp [Vim.sync_vim_settings, update_active_editor, hv, setInsert_idem,
        unhook_vim_settings]
    · by_cases hm : ed.mode = EditorMode.full <;>
        simp [Vim.sync_vim_settings, update_active_editor, hv, setRemove_idem, hm,
          unhook_vim_settings]

/-- C9: `sync_vim_settings` is idempotent for a fixed controller state;
after it runs, the command-palette filter contains the vim namespace
exactly when the modal system is disabled; and the surface's cursor
shape, clip flag, input-enabled flag, line-mode flag and context layer
depend only on the controller state and the surface's editing-mode
category. -/
theorem sync_vim_settings_spec (v : Vim) (w : World) :
    v.sync_vim_settings (v.sync_vim_settings w) = v.sync_vim_settings w ∧
    ("vim" ∈ (v.sync_vim_settings w).filter.filtered_namespaces ↔ v.enabled = false) ∧
    (∀ wa wb ea eb, wa.editor = some ea → wb.editor = some eb → ea.mode = eb.mode →
      ∃ fa fb, (v.sync_vim_settings wa).editor = some fa ∧
        (v.sync_vim_settings wb).editor = some fb ∧
        fa.cursor_shape = fb.cursor_shape ∧
        fa.clip_at_line_ends = fb.clip_at_line_ends ∧
        fa.input_enabled = fb.input_enabled ∧
        fa.line_mode = fb.line_mode ∧
        fa.context_layer = fb.context_layer) := by
  refine ⟨sync_vim_settings_idem v w, ?_, ?_⟩
  · cases hv : v.enabled <;>
      simp [Vim.sync_vim_settings, update_active_editor, hv, mem_setRemove_self,
        mem_setInsert_self]
  · intro wa wb ea eb ha hb hm
    refine ⟨_, _, sync_editor_eq v wa ea ha, sync_editor_eq v wb eb hb, ?_⟩
    by_cases hc : v.enabled = true ∧ ea.mode = EditorMode.full
    · have hc2 : v.enabled = true ∧ eb.mode = EditorMode.full := ⟨hc.1, hm ▸ hc.2⟩
      simp [if_pos hc, if_pos hc2]
    · have hc2 : ¬(v.enabled = true ∧ eb.mode = EditorMode.full) := fun hx =>
        hc ⟨hx.1, hm.symm ▸ hx.2⟩
      simp [if_neg hc, if_neg hc2, unhook_vim_settings]

/-- Witness for C9: idempotence on the default state, the vim namespace
filtered while disabled, and equal derived surface settings for two
surfaces in the same editing-mode category. -/
theorem sync_vim_settings_spec_witness :
    v0.sync_vim_settings (v0.sync_vim_settings w0) = v0.sync_vim_settings w0 ∧
    "vim" ∈ (v0.sync_vim_settings w0).filter.filtered_namespaces ∧
    (∃ fa fb, (v0.sync_vim_settings wE).editor = some fa ∧
      (v0.sync_vim_settings wE).editor = some fb ∧
      fa.cursor_shape = fb.cursor_shape ∧
      fa.clip_at_line_ends = fb.clip_at_line_ends ∧
      fa.input_enabled = fb.input_enabled ∧
      fa.line_mode = fb.line_mode ∧
      fa.context_layer = fb.context_layer) := by
  refine ⟨(sync_vim_settings_spec v0 w0).1, ?_, ?_⟩
  · exact ((sync_vim_settings_spec v0 w0).2.1).mpr rfl
  · exact (sync_vim_settings_spec v0 wE).2.2 wE wE edFull edFull rfl rfl rfl

end VimCore

namespace VimCore

lemma sync_preserves_selections (v : Vim) (w : World) :
    (v.sync_vim_settings w).editor.map Editor.selections
      = w.editor.map Editor.selections := by
  rcases w with ⟨f, e⟩
  rcases e with _ | ed
  · simp [Vim.sync_vim_settings, update_active_editor]
  · by_cases hc : v.enabled = true ∧ ed.mode = EditorMode.full <;>
      simp [Vim.sync_vim_settings, update_active_editor, hc, unhook_vim_settings]

/-- C8: `switch_mode` with `leave_selections = true` leaves every selection
of the bound surface untouched; with `leave_selections = false` it
collapses every selection to its leftward-clamped head when the target
mode requires empty selections, and otherwise moves the non-head endpoint
to that same clamped head. -/
theorem switch_mode_selections_spec (v : Vim) (mode : Mode) (clip : Nat → Nat) (w : World) :
    (((v.switch_mode mode true clip w).2).editor.map Editor.selections
        = w.editor.map Editor.selections) ∧
    ((VimState.mk mode []).empty_selections_only = true →
      ((v.switch_mode mode false clip w).2).editor.map Editor.selections
        = w.editor.map (fun e =>
            e.selections.map fun s => s.collapse_to (clip s.head) s.goal)) ∧
    ((VimState.mk mode []).empty_selections_only = false →
      ((v.switch_mode mode false clip w).2).editor.map Editor.selections
        = w.editor.map (fun e =>
            e.selections.map fun s => s.set_head (clip s.head) s.goal)) := by
  refine ⟨?_, ?_, ?_⟩
  · simp only [Vim.switch_mode, if_pos]
    exact sync_preserves_selections _ w
  · intro h
    rcases w with ⟨f, e⟩
    rcases e with _ | ed
    · simp [Vim.switch_mode, Vim.sync_vim_settings, update_active_editor]
    · cases hv : v.enabled <;> by_cases hm : ed.mode = EditorMode.full <;>
        simp [Vim.switch_mode, Vim.sync_vim_settings, update_active_editor, hv, hm,
          unhook_vim_settings, h]
  · intro h
    rcases w with ⟨f, e⟩
    rcases e with _ | ed
    · simp [Vim.switch_mode, Vim.sync_vim_settings, update_active_editor]
    · cases hv : v.enabled <;> by_cases hm : ed.mode = EditorMode.full <;>
        simp [Vim.switch_mode, Vim.sync_vim_settings, update_active_editor, hv, hm,
          unhook_vim_settings, h]

/-- Witness for C8: switching the default controller to Normal (which
requires empty selections) over the surface `edFull` collapses its
selection `⟨3, 1, 0⟩` to its head, and switching to Visual leaves the
head and moves the other endpoint to the clamped head. -/
theorem switch_mode_selections_spec_witness :
    ((v0.switch_mode .normal false id wE).2).editor.map Editor.selections
      = some [Selection.mk 3 3 0] ∧
    ((v0.switch_mode (.visual false) false id wE).2).editor.map Editor.selections
      = some [Selection.mk 3 3 0] ∧
    ((v0.switch_mode .normal true id wE).2).editor.map Editor.selections
      = some [Selection.mk 3 1 0] := by
  refine ⟨?_, ?_, ?_⟩
  · have h := (switch_mode_selections_spec v0 .normal id wE).2.1 rfl
    rw [h]; decide
  · have h := (switch_mode_selections_spec v0 (.visual false) id wE).2.2 rfl
    rw [h]; decide
  · have h := (switch_mode_selections_spec v0 .normal id wE).1
    rw [h]; decide

end VimCore

namespace VimCore

/-- C3 counterexample: `set_enabled(false)` while already disabled returns
with the app state untouched and unreconciled — the world it leaves is
not a fixpoint of `sync_vim_settings` (a sync would have inserted the vim
namespace into the empty command-palette filter), so this call did not
finish with a `sync_vim_settings` call. -/
theorem set_enabled_unchanged_skips_sync :
    v0.set_enabled false id w0 = (v0, w0) ∧
    (v0.set_enabled false id w0).1.sync_vim_settings (v0.set_enabled false id w0).2
      ≠ (v0.set_enabled false id w0).2 := by
  constructor
  · decide
  · decide

/-- C3 (amended): `set_enabled` is a complete no-op — with no sync call —
when the enabled flag is unchanged; on a genuine transition it replaces
the entire mode state with a fresh default, additionally invokes
`switch_mode(Normal, leave_selections=false)` when transitioning to
enabled, and finishes with a `sync_vim_settings` call (the final world is
sync-reconciled, and equals the sync of the post-transition world). -/
theorem set_enabled_spec (v : Vim) (e : Bool) (clip : Nat → Nat) (w : World) :
    (v.enabled = e → v.set_enabled e clip w = (v, w)) ∧
    (v.enabled ≠ e →
      (v.set_enabled e clip w).1 = Vim.mk e {} ∧
      ((v.set_enabled e clip w).1).state.mode = Mode.normal ∧
      ((v.set_enabled e clip w).1).state.operator_stack = [] ∧
      ((v.set_enabled e clip w).1).sync_vim_settings ((v.set_enabled e clip w).2)
        = (v.set_enabled e clip w).2 ∧
      (e = true → (v.set_enabled e clip w).2
        = (Vim.mk true {}).sync_vim_settings
            (((Vim.mk true {}).switch_mode .normal false clip w).2)) ∧
      (e = false → (v.set_enabled e clip w).2
        = (Vim.mk false {}).sync_vim_settings w)) := by
  constructor
  · intro h
    simp [Vim.set_enabled, h]
  · intro h
    cases hv : v.enabled
    · cases e
      · exact absurd hv h
      · refine ⟨?_, ?_, ?_, ?_, ?_, ?_⟩ <;>
          simp [Vim.set_enabled, hv, Vim.switch_mode, sync_vim_settings_idem]
    · cases e
      · refine ⟨?_, ?_, ?_, ?_, ?_, ?_⟩ <;>
          simp [Vim.set_enabled, hv, sync_vim_settings_idem]
      · exact absurd hv h

/-- Witness for C3 (amended): disabling while disabled is the identity;
enabling from the default state yields the fresh enabled controller; and
a second `set_enabled(true)` right after is a no-op. -/
theorem set_enabled_spec_witness :
    v0.set_enabled false id w0 = (v0, w0) ∧
    (v0.set_enabled true id w0).1 = Vim.mk true {} ∧
    ((v0.set_enabled true id w0).1).set_enabled true id (v0.set_enabled true id w0).2
      = ((v0.set_enabled true id w0).1, (v0.set_enabled true id w0).2) := by
  refine ⟨?_, ?_, ?_⟩
  · exact (set_enabled_spec v0 false id w0).1 rfl
  · exact ((set_enabled_spec v0 true id w0).2 (by decide)).1
  · have h1 := ((set_enabled_spec v0 true id w0).2 (by decide)).1
    have h2 : ((v0.set_enabled true id w0).1).enabled = true := by rw [h1]
    exact (set_enabled_spec (v0.set_enabled true id w0).1 true id
      (v0.set_enabled true id w0).2).1 h2

end VimCore
